import Mathlib

/-!
Shallow embedding of the generic repository in
src/lib/repositories/base/repository.ts: an abstract class bound to a
mongoose model (the storage-collection handle) exposing get, getAll,
find, create, createMany, remove and removeMany.

The storage engine (the mongoose `Model`) is the external collaborator:
it is modelled as a document store plus a log of every request the
repository issues to it, and a failure predicate that lets a single
storage request be rejected (a `StorageFailure` propagated unmodified).
Each repository method is translated line by line from the source.
-/

/-- Decidable equality of results, so concrete runs can be checked by
evaluation. -/
instance {e a : Type} [DecidableEq e] [DecidableEq a] : DecidableEq (Except e a) := fun x y =>
  match x, y with
  | .error u, .error v =>
      if h : u = v then isTrue (congrArg Except.error h)
      else isFalse (by intro hc; injection hc; exact h (by assumption))
  | .error _, .ok _ => isFalse (by intro hc; exact Except.noConfusion hc)
  | .ok _, .error _ => isFalse (by intro hc; exact Except.noConfusion hc)
  | .ok u, .ok v =>
      if h : u = v then isTrue (congrArg Except.ok h)
      else isFalse (by intro hc; injection hc; exact h (by assumption))

/-- Field values of a stored document; entity fields are opaque to the
repository, so an association list of numeric field values suffices. -/
abbrev Payload := List (String × Nat)

/-- A stored document: the engine-side identifier plus its fields. -/
structure Doc where
  id : String
  payload : Payload
deriving Repr, DecidableEq

/-- A projection (`Projection` in the source): field name mapped to an
inclusion flag 1 or 0. -/
abbrev Projection := List (String × Nat)

/-- A sort specification (`Sort` in the source): field name mapped to a
direction 1 (ascending) or -1 (descending). -/
abbrev SortSpec := List (String × Int)

/-- The filter expressions the repository actually hands to the engine:
the empty filter, field-equality conditions (the opaque `FilterQuery`
passed through by `find`, restricted to its equality fragment), and the
identifier-membership filter built by `removeMany`. -/
inductive MongoFilter where
  | empty : MongoFilter
  | fields (conds : List (String × Nat)) : MongoFilter
  | idIn (ids : List String) : MongoFilter
deriving Repr, DecidableEq

/-- Whether a document matches a filter. -/
def MongoFilter.matches : MongoFilter → Doc → Bool
  | .empty, _ => true
  | .fields conds, d => conds.all (fun c => d.payload.lookup c.1 == some c.2)
  | .idIn ids, d => ids.contains d.id

/-- A request issued to the storage engine: the five primitives of the
storage-collection handle the repository uses. `findQuery` carries the
whole built query (filter, projection, sort, skip, limit) because the
repository executes it as one request. -/
inductive StorageReq where
  | findById (id : String) (proj : Projection) : StorageReq
  | findQuery (filter : MongoFilter) (proj : Projection) (sort : Option SortSpec)
      (skip : Int) (limit : Int) : StorageReq
  | insertOne (payload : Payload) : StorageReq
  | findByIdAndRemove (id : String) : StorageReq
  | deleteMany (filter : MongoFilter) : StorageReq
deriving Repr, DecidableEq

/-- Which identifiers a storage request mentions, for stating that an
identifier did or did not reach the storage layer. -/
def StorageReq.usesId : StorageReq → String → Bool
  | .findById id _, i => id == i
  | .findByIdAndRemove id, i => id == i
  | .deleteMany (.idIn ids), i => ids.contains i
  | _, _ => false

/-- The error taxonomy of the layer: `Error('Invalid Id')` and
`Error('Empty object provided')` are the spec's `InvalidArgument`,
`Error('Method not implemented.')` is `NotImplemented`, and an engine
rejection is `StorageFailure` propagated unmodified. -/
inductive RepoError where
  | invalidArgument (msg : String) : RepoError
  | notImplemented : RepoError
  | storageFailure : RepoError
deriving Repr, DecidableEq

/-- The state of the storage engine as the repository sees it: the
collection's documents plus, in order, every request received. -/
structure ModelState where
  store : List Doc
  log : List StorageReq
deriving Repr, DecidableEq

/-- A failure-injection predicate: which storage requests the engine
rejects. The repository adds no retry on top, so a rejected request is
logged, leaves the store unchanged and surfaces as `storageFailure`. -/
abbrev FailOn := StorageReq → Bool

/-- The engine that rejects nothing (the happy path). -/
def noFail : FailOn := fun _ => false

/-- Mongoose identifier validation (`Types.ObjectId.isValid`): a string
is a valid ObjectId iff it has 12 characters (a 12-byte id) or 24
hexadecimal characters. -/
def isValidObjectId (id : String) : Bool :=
  id.length == 12 ||
    (id.length == 24 && id.data.all fun c =>
      (decide (('0' : Char) ≤ c) && decide (c ≤ ('9' : Char))) ||
      (decide (('a' : Char) ≤ c) && decide (c ≤ ('f' : Char))) ||
      (decide (('A' : Char) ≤ c) && decide (c ≤ ('F' : Char))))

/-- Applying a projection to a document: an empty projection keeps every
field; an inclusive projection ({f : 1}) keeps the listed fields; an
exclusive projection ({f : 0}) drops the listed fields. -/
def applyProjection (proj : Projection) (d : Doc) : Doc :=
  if proj.isEmpty then d
  else if proj.any (fun p => p.2 == 1) then
    { d with payload := d.payload.filter (fun f => proj.contains (f.1, 1)) }
  else
    { d with payload := d.payload.filter (fun f => !(proj.contains (f.1, 0))) }

/-- Insert a document into a list sorted by the comparison. -/
def insertSorted (le : Doc → Doc → Bool) (d : Doc) : List Doc → List Doc
  | [] => [d]
  | x :: xs => if le d x then d :: x :: xs else x :: insertSorted le d xs

/-- Insertion sort of documents by the comparison. -/
def sortDocs (le : Doc → Doc → Bool) : List Doc → List Doc
  | [] => []
  | x :: xs => insertSorted le x (sortDocs le xs)

/-- Lexicographic comparison induced by a sort specification: direction
1 sorts a field ascending, any other direction descending. -/
def sortSpecLe (spec : SortSpec) (a b : Doc) : Bool :=
  match spec with
  | [] => true
  | (field, dir) :: rest =>
      let va := (a.payload.lookup field).getD 0
      let vb := (b.payload.lookup field).getD 0
      if va == vb then sortSpecLe rest a b
      else if dir == 1 then decide (va ≤ vb) else decide (vb ≤ va)

/-- Engine-side ordering step of a query: sort only when a sort
specification was given, as the repository only calls `query.sort(sort)`
when `sort` is present. -/
def applySort : Option SortSpec → List Doc → List Doc
  | none, l => l
  | some spec, l => sortDocs (sortSpecLe spec) l

/-- Identifier assigned by the engine on insert (external collaborator
behavior): a fresh 24-character hexadecimal string. No repository claim
depends on the scheme, only on the insert being issued. -/
def engineAssignedId (n : Nat) : String :=
  String.mk (List.replicate 24 (Char.ofNat (97 + n % 6)))

/-- The storage engine executing one request: the request is always
logged; a rejected request changes nothing and fails; otherwise the
five primitives act on the store and return the resulting documents. -/
def execReq (failOn : FailOn) (req : StorageReq) (s : ModelState) :
    Except RepoError (List Doc) × ModelState :=
  let s' : ModelState := { s with log := s.log ++ [req] }
  if failOn req then (.error .storageFailure, s')
  else
    match req with
    | .findById id proj =>
        (.ok ((s.store.filter (fun d => d.id == id)).take 1 |>.map (applyProjection proj)), s')
    | .findQuery filter proj sort skip limit =>
        (.ok ((((applySort sort (s.store.filter (filter.matches ·))).drop skip.toNat).take
          limit.toNat).map (applyProjection proj)), s')
    | .insertOne payload =>
        let d : Doc := ⟨engineAssignedId s.store.length, payload⟩
        (.ok [d], { s' with store := s.store ++ [d] })
    | .findByIdAndRemove id =>
        (.ok (s.store.filter (fun d => d.id == id)),
          { s' with store := s.store.filter (fun d => !(d.id == id)) })
    | .deleteMany filter =>
        (.ok [], { s' with store := s.store.filter (fun d => !(filter.matches d)) })

/-- Embedding of `Repository.get` (repository.ts lines 53-63): rejects a
falsy (empty) or invalid identifier with `Error('Invalid Id')` before
touching the model, otherwise issues `findById` and returns the single
document or the not-found sentinel `none`. -/
def Repository.get (failOn : FailOn) (id : String) (proj : Projection) (s : ModelState) :
    Except RepoError (Option Doc) × ModelState :=
  if id == "" || !(isValidObjectId id) then
    (.error (.invalidArgument "Invalid Id"), s)
  else
    match execReq failOn (.findById id proj) s with
    | (.error e, s') => (.error e, s')
    | (.ok docs, s') => (.ok docs.head?, s')

/-- Default `limit` of `getAll` in the source (line 65). -/
def Repository.getAllDefaultLimit : Int := 20

/-- Default `page` of `getAll` in the source (line 65). -/
def Repository.getAllDefaultPage : Int := 1

/-- Embedding of `Repository.getAll` (repository.ts lines 65-84): builds
one query over all records with the projection, sorts when a sort is
given, skips `limit * (page - 1)` only when `page > 0`, limits, and
executes it as a single request. -/
def Repository.getAll (failOn : FailOn) (limit page : Int) (sort : Option SortSpec)
    (proj : Projection) (s : ModelState) : Except RepoError (List Doc) × ModelState :=
  let skip : Int := if 0 < page then limit * (page - 1) else 0
  execReq failOn (.findQuery .empty proj sort skip limit) s

/-- `getAll` invoked with its parameters left to their defaults. -/
def Repository.getAllDefault (failOn : FailOn) (sort : Option SortSpec) (proj : Projection)
    (s : ModelState) : Except RepoError (List Doc) × ModelState :=
  Repository.getAll failOn Repository.getAllDefaultLimit Repository.getAllDefaultPage sort proj s

/-- Default `limit` of `find` in the source (line 87). -/
def Repository.findDefaultLimit : Int := 10

/-- Default `page` of `find` in the source (line 87). -/
def Repository.findDefaultPage : Int := 0

/-- Embedding of `Repository.find` (repository.ts lines 86-106): same
query construction as `getAll` but scoped to the caller's filter. -/
def Repository.find (failOn : FailOn) (filter : MongoFilter) (limit page : Int)
    (sort : Option SortSpec) (proj : Projection) (s : ModelState) :
    Except RepoError (List Doc) × ModelState :=
  let skip : Int := if 0 < page then limit * (page - 1) else 0
  execReq failOn (.findQuery filter proj sort skip limit) s

/-- `find` invoked with only a filter, pagination left to its defaults. -/
def Repository.findDefault (failOn : FailOn) (filter : MongoFilter) (s : ModelState) :
    Except RepoError (List Doc) × ModelState :=
  Repository.find failOn filter Repository.findDefaultLimit Repository.findDefaultPage none [] s

/-- JavaScript falsiness of the `data` argument of `create`: `!data` is
true exactly when `data` is null or undefined; every object, the empty
object `\x7b\x7d` included, is truthy. -/
def jsObjectFalsy (data : Option Payload) : Bool := data.isNone

/-- Embedding of `Repository.create` (repository.ts lines 108-117):
throws `Error('Empty object provided')` when `!data`, otherwise issues
one `insertOne` and returns the stored document. -/
def Repository.create (failOn : FailOn) (data : Option Payload) (s : ModelState) :
    Except RepoError Doc × ModelState :=
  if jsObjectFalsy data then (.error (.invalidArgument "Empty object provided"), s)
  else
    match execReq failOn (.insertOne (data.getD [])) s with
    | (.error e, s') => (.error e, s')
    | (.ok docs, s') => (.ok (docs.headD ⟨"", []⟩), s')

/-- Embedding of `Repository.createMany` (repository.ts lines 119-121):
throws `Error('Method not implemented.')` unconditionally, before any
use of the model. -/
def Repository.createMany (_data : List Payload) (s : ModelState) :
    Except RepoError (List Doc) × ModelState :=
  (.error .notImplemented, s)

/-- Embedding of `Repository.remove` (repository.ts lines 123-130):
rejects a falsy or invalid identifier with `Error('Invalid Id')` before
touching the model, otherwise issues one `findByIdAndRemove`. -/
def Repository.remove (failOn : FailOn) (id : String) (s : ModelState) :
    Except RepoError Unit × ModelState :=
  if id == "" || !(isValidObjectId id) then
    (.error (.invalidArgument "Invalid Id"), s)
  else
    match execReq failOn (.findByIdAndRemove id) s with
    | (.error e, s') => (.error e, s')
    | (.ok _, s') => (.ok (), s')

/-- The final statement of `removeMany` (repository.ts line 138): the
unconditional `deleteMany` over the empty filter. -/
def Repository.removeManyTail (failOn : FailOn) (s : ModelState) :
    Except RepoError Unit × ModelState :=
  match execReq failOn (.deleteMany .empty) s with
  | (.error e, s') => (.error e, s')
  | (.ok _, s') => (.ok (), s')

/-- Embedding of `Repository.removeMany` (repository.ts lines 132-139):
when `ids` is an array with positive length, first issues a `deleteMany`
over the identifier-membership filter; then, in every case, issues the
unconditional `deleteMany` over the empty filter. An absent `ids`
(undefined) is `none`. -/
def Repository.removeMany (failOn : FailOn) (ids : Option (List String)) (s : ModelState) :
    Except RepoError Unit × ModelState :=
  match ids with
  | some l =>
      if 0 < l.length then
        match execReq failOn (.deleteMany (.idIn l)) s with
        | (.error e, s1) => (.error e, s1)
        | (.ok _, s1) => Repository.removeManyTail failOn s1
      else Repository.removeManyTail failOn s
  | none => Repository.removeManyTail failOn s

/-! Concrete fixtures: five documents with valid 12-character ObjectIds,
used to evaluate the operations on the 5-record collection of the spec's
examples. -/

/-- A valid 12-character identifier. -/
def idA : String := "aaaaaaaaaaaa"

/-- A valid 12-character identifier. -/
def idB : String := "bbbbbbbbbbbb"

/-- A valid 12-character identifier. -/
def idC : String := "cccccccccccc"

/-- A valid 12-character identifier. -/
def idD : String := "dddddddddddd"

/-- A valid 12-character identifier. -/
def idE : String := "eeeeeeeeeeee"

/-- First fixture document. -/
def docA : Doc := ⟨idA, [("name", 1)]⟩

/-- Second fixture document. -/
def docB : Doc := ⟨idB, [("name", 2)]⟩

/-- Third fixture document. -/
def docC : Doc := ⟨idC, [("name", 3)]⟩

/-- Fourth fixture document. -/
def docD : Doc := ⟨idD, [("name", 4)]⟩

/-- Fifth fixture document. -/
def docE : Doc := ⟨idE, [("name", 5)]⟩

/-- A collection of five records with an empty request log. -/
def fiveState : ModelState := ⟨[docA, docB, docC, docD, docE], []⟩

/-- A storage engine that rejects exactly the targeted bulk deletions
(the identifier-membership `deleteMany` requests). -/
def failTargeted : FailOn := fun r =>
  match r with
  | .deleteMany (.idIn _) => true
  | _ => false

/-! Helper lemmas shared by the claim theorems. -/

/-- Filtering with a predicate false on every element yields the empty
list. -/
lemma filter_all_false {α : Type} {p : α → Bool} (l : List α)
    (h : ∀ d ∈ l, p d = false) : l.filter p = [] := by
  simpa using h

/-- Filtering with a predicate true on every element keeps the list. -/
lemma filter_all_true {α : Type} {p : α → Bool} (l : List α)
    (h : ∀ d ∈ l, p d = true) : l.filter p = l := by
  simpa using h

/-- A successful unconditional `deleteMany` over the empty filter logs
one request and leaves the store empty. -/
lemma execReq_deleteMany_empty (failOn : FailOn) (s : ModelState)
    (h : failOn (.deleteMany .empty) = false) :
    execReq failOn (.deleteMany .empty) s =
      (.ok [], ⟨[], s.log ++ [.deleteMany .empty]⟩) := by
  simp [execReq, h, MongoFilter.matches]

/-- A successful targeted `deleteMany` logs one request and removes the
records whose identifier is in the list. -/
lemma execReq_deleteMany_idIn (failOn : FailOn) (l : List String) (s : ModelState)
    (h : failOn (.deleteMany (.idIn l)) = false) :
    execReq failOn (.deleteMany (.idIn l)) s =
      (.ok [], ⟨s.store.filter (fun d => !(l.contains d.id)),
        s.log ++ [.deleteMany (.idIn l)]⟩) := by
  simp [execReq, h, MongoFilter.matches]

/-- The final statement of `removeMany`, when the engine accepts the
request, succeeds and wipes the collection. -/
lemma removeManyTail_ok (failOn : FailOn) (s : ModelState)
    (h : failOn (.deleteMany .empty) = false) :
    Repository.removeManyTail failOn s =
      (.ok (), ⟨[], s.log ++ [.deleteMany .empty]⟩) := by
  unfold Repository.removeManyTail
  rw [execReq_deleteMany_empty failOn s h]

/-- The final statement of `removeMany`, when the engine rejects the
request, fails and leaves the store as it was. -/
lemma removeManyTail_fail (failOn : FailOn) (s : ModelState)
    (h : failOn (.deleteMany .empty) = true) :
    Repository.removeManyTail failOn s =
      (.error .storageFailure, ⟨s.store, s.log ++ [.deleteMany .empty]⟩) := by
  unfold Repository.removeManyTail execReq
  simp [h]

/-- Whenever the final statement of `removeMany` reports success, the
store is empty. -/
lemma removeManyTail_ok_store (failOn : FailOn) (s : ModelState)
    (h : (Repository.removeManyTail failOn s).1 = .ok ()) :
    (Repository.removeManyTail failOn s).2.store = [] := by
  by_cases hf : failOn (.deleteMany .empty) = true
  · rw [removeManyTail_fail failOn s hf] at h
    exact absurd h (by simp)
  · rw [removeManyTail_ok failOn s (by simpa using hf)]

/-- C1: for every ids argument to removeMany (non-empty, empty, or
absent), after removeMany completes successfully the collection is
empty — the base behavior first deletes the records whose identifier is
in ids (when ids is a non-empty sequence) and then unconditionally
deletes all remaining records in the collection. -/
theorem removeMany_empties_collection (failOn : FailOn) (ids : Option (List String))
    (s : ModelState) (h : (Repository.removeMany failOn ids s).1 = .ok ()) :
    (Repository.removeMany failOn ids s).2.store = [] := by
  cases ids with
  | none => exact removeManyTail_ok_store failOn s h
  | some l =>
      by_cases hl : 0 < l.length
      · have hdef : Repository.removeMany failOn (some l) s =
            (match execReq failOn (.deleteMany (.idIn l)) s with
             | (.error e, s1) => (.error e, s1)
             | (.ok _, s1) => Repository.removeManyTail failOn s1) := by
          simp [Repository.removeMany, hl]
        rcases hx : execReq failOn (.deleteMany (.idIn l)) s with ⟨r, s1⟩
        cases r with
        | error e =>
            rw [hdef, hx] at h
            exact absurd h (by simp)
        | ok docs =>
            rw [hdef, hx] at h ⊢
            exact removeManyTail_ok_store failOn s1 h
      · have hdef : Repository.removeMany failOn (some l) s =
            Repository.removeManyTail failOn s := by
          simp [Repository.removeMany, hl]
        rw [hdef] at h ⊢
        exact removeManyTail_ok_store failOn s h

/-- Witness for C1: removing two of the five fixture records succeeds
and leaves the collection empty. -/
theorem removeMany_empties_collection_witness :
    (Repository.removeMany noFail (some [idA, idB]) fiveState).1 = .ok () ∧
    (Repository.removeMany noFail (some [idA, idB]) fiveState).2.store = [] :=
  ⟨by decide, removeMany_empties_collection noFail (some [idA, idB]) fiveState (by decide)⟩

/-- C7: for every input sequence, createMany on the unspecialized base
fails with NotImplemented unconditionally, performing no storage
operation (the model state, its request log included, is untouched). -/
theorem createMany_notImplemented (data : List Payload) (s : ModelState) :
    Repository.createMany data s = (.error .notImplemented, s) := rfl

/-- When the identifier guard of `get`/`remove` fires, both operations
throw `Invalid Id` with the model state untouched. -/
lemma invalidId_rejected (failOn : FailOn) (id : String) (proj : Projection)
    (s : ModelState) (h : (id == "" || !(isValidObjectId id)) = true) :
    Repository.get failOn id proj s = (.error (.invalidArgument "Invalid Id"), s) ∧
    Repository.remove failOn id s = (.error (.invalidArgument "Invalid Id"), s) := by
  constructor
  · simp [Repository.get, h]
  · simp [Repository.remove, h]

/-- The empty string and every string failing ObjectId validation make
the guard of `get`/`remove` fire. -/
lemma invalid_guard_fires (id : String) (h : id = "" ∨ isValidObjectId id = false) :
    (id == "" || !(isValidObjectId id)) = true := by
  rcases h with h | h
  · subst h; rfl
  · simp [h]

/-- C8: for every invalid identifier (empty string or malformed format),
get and remove fail with InvalidArgument and the storage handle is not
invoked (the model state, its request log included, is unchanged). -/
theorem get_remove_invalid_id (failOn : FailOn) (id : String) (proj : Projection)
    (s : ModelState) (h : id = "" ∨ isValidObjectId id = false) :
    Repository.get failOn id proj s = (.error (.invalidArgument "Invalid Id"), s) ∧
    Repository.remove failOn id s = (.error (.invalidArgument "Invalid Id"), s) :=
  invalidId_rejected failOn id proj s (invalid_guard_fires id h)

/-- Witness for C8: the empty string and a malformed identifier are both
rejected on the five-record fixture without any storage request. -/
theorem get_remove_invalid_id_witness :
    isValidObjectId "bad" = false ∧
    Repository.get noFail "bad" [] fiveState =
      (.error (.invalidArgument "Invalid Id"), fiveState) ∧
    Repository.remove noFail "" fiveState =
      (.error (.invalidArgument "Invalid Id"), fiveState) :=
  ⟨by decide,
    (get_remove_invalid_id noFail "bad" [] fiveState (Or.inr (by decide))).1,
    (get_remove_invalid_id noFail "" [] fiveState (Or.inl rfl)).2⟩

/-- C9: for every valid identifier with no matching record, get returns
the not-found sentinel none rather than raising an error, and remove
completes without error leaving the store (hence the collection count)
unchanged — absence is never signaled as a failure. -/
theorem get_remove_id_not_found (id : String) (proj : Projection) (s : ModelState)
    (hv : isValidObjectId id = true)
    (habs : ∀ d ∈ s.store, (d.id == id) = false) :
    (Repository.get noFail id proj s).1 = .ok none ∧
    Repository.remove noFail id s =
      (.ok (), ⟨s.store, s.log ++ [.findByIdAndRemove id]⟩) := by
  have hne : (id == "") = false := by
    rcases hb : (id == "") with _ | _
    · rfl
    · have : id = "" := by simpa using hb
      rw [this] at hv
      exact absurd hv (by decide)
  have hguard : (id == "" || !(isValidObjectId id)) = false := by
    simp [hne, hv]
  have hfind : s.store.filter (fun d => d.id == id) = [] :=
    filter_all_false s.store habs
  have hkeep : s.store.filter (fun d => !(d.id == id)) = s.store :=
    filter_all_true s.store (fun d hd => by simp [habs d hd])
  constructor
  · simp [Repository.get, hguard, execReq, noFail, hfind]
  · simp [Repository.remove, hguard, execReq, noFail, hkeep]

/-- Witness for C9: a valid identifier absent from the five-record
fixture yields the sentinel on get and an unchanged store on remove. -/
theorem get_remove_id_not_found_witness :
    isValidObjectId "ffffffffffff" = true ∧
    (Repository.get noFail "ffffffffffff" [] fiveState).1 = .ok none ∧
    Repository.remove noFail "ffffffffffff" fiveState =
      (.ok (), ⟨fiveState.store, [.findByIdAndRemove "ffffffffffff"]⟩) := by
  have h := get_remove_id_not_found "ffffffffffff" [] fiveState (by decide)
    (by decide)
  exact ⟨by decide, h.1, h.2⟩

/-- A successful `findQuery` request logs one request, leaves the store
unchanged, and returns the filtered, sorted, skipped, limited and
projected documents. -/
lemma execReq_findQuery (failOn : FailOn) (filter : MongoFilter) (proj : Projection)
    (sort : Option SortSpec) (skip limit : Int) (s : ModelState)
    (h : failOn (.findQuery filter proj sort skip limit) = false) :
    execReq failOn (.findQuery filter proj sort skip limit) s =
      (.ok ((((applySort sort (s.store.filter (filter.matches ·))).drop skip.toNat).take
          limit.toNat).map (applyProjection proj)),
        ⟨s.store, s.log ++ [.findQuery filter proj sort skip limit]⟩) := by
  simp [execReq, h]

/-- C5: getAll defaults to limit 20 and page 1; whenever page is
positive it applies skip = limit * (page - 1) before applying limit; on
the five-record fixture, limit 2 with page 1 returns exactly the first
two records with skip 0, page 2 the next two with skip 2, and page 3 the
remaining one with skip 4. -/
theorem getAll_defaults_and_pagination :
    Repository.getAllDefaultLimit = 20 ∧ Repository.getAllDefaultPage = 1 ∧
    (∀ (failOn : FailOn) (sort : Option SortSpec) (proj : Projection) (s : ModelState),
        Repository.getAllDefault failOn sort proj s =
          Repository.getAll failOn 20 1 sort proj s) ∧
    (∀ (limit page : Int) (proj : Projection) (s : ModelState), 0 < page →
        Repository.getAll noFail limit page none proj s =
          (.ok (((s.store.drop (limit * (page - 1)).toNat).take limit.toNat).map
              (applyProjection proj)),
            ⟨s.store, s.log ++ [.findQuery .empty proj none (limit * (page - 1)) limit]⟩)) ∧
    ((Repository.getAll noFail 2 1 none [] fiveState).1 = .ok [docA, docB] ∧
      (Repository.getAll noFail 2 1 none [] fiveState).2.log =
        [.findQuery .empty [] none 0 2] ∧
      (Repository.getAll noFail 2 2 none [] fiveState).1 = .ok [docC, docD] ∧
      (Repository.getAll noFail 2 2 none [] fiveState).2.log =
        [.findQuery .empty [] none 2 2] ∧
      (Repository.getAll noFail 2 3 none [] fiveState).1 = .ok [docE] ∧
      (Repository.getAll noFail 2 3 none [] fiveState).2.log =
        [.findQuery .empty [] none 4 2]) := by
  refine ⟨rfl, rfl, fun failOn sort proj s => rfl,
    fun limit page proj s hp => ?_, by decide⟩
  simp [Repository.getAll, hp, execReq, noFail, MongoFilter.matches, applySort]

/-- Witness for C5: page 2 with limit 2 on the five-record fixture skips
two records and returns the next two. -/
theorem getAll_pagination_witness :
    (0 : Int) < 2 ∧
    Repository.getAll noFail 2 2 none [] fiveState =
      (.ok [docC, docD], ⟨fiveState.store, [.findQuery .empty [] none 2 2]⟩) := by
  refine ⟨by decide, ?_⟩
  rw [getAll_defaults_and_pagination.2.2.2.1 2 2 [] fiveState (by decide)]
  decide

/-- C6: find defaults to limit 10 and page 0; for every page at most 0
no skip is applied, so the returned sequence starts from the first
record matching the filter; for positive page it applies the same
skip = limit * (page - 1) pagination as getAll, scoped to the filter. -/
theorem find_defaults_and_pagination :
    Repository.findDefaultLimit = 10 ∧ Repository.findDefaultPage = 0 ∧
    (∀ (failOn : FailOn) (filter : MongoFilter) (s : ModelState),
        Repository.findDefault failOn filter s =
          Repository.find failOn filter 10 0 none [] s) ∧
    (∀ (filter : MongoFilter) (limit page : Int) (proj : Projection) (s : ModelState),
        page ≤ 0 →
        Repository.find noFail filter limit page none proj s =
          (.ok (((s.store.filter (filter.matches ·)).take limit.toNat).map
              (applyProjection proj)),
            ⟨s.store, s.log ++ [.findQuery filter proj none 0 limit]⟩)) ∧
    (∀ (filter : MongoFilter) (limit page : Int) (proj : Projection) (s : ModelState),
        0 < page →
        Repository.find noFail filter limit page none proj s =
          (.ok ((((s.store.filter (filter.matches ·)).drop ((limit * (page - 1)).toNat)).take
              limit.toNat).map (applyProjection proj)),
            ⟨s.store, s.log ++ [.findQuery filter proj none (limit * (page - 1)) limit]⟩)) := by
  refine ⟨rfl, rfl, fun failOn filter s => rfl,
    fun filter limit page proj s hp => ?_, fun filter limit page proj s hp => ?_⟩
  · have hp' : ¬ (0 < page) := by omega
    simp [Repository.find, hp', execReq, noFail, applySort]
  · simp [Repository.find, hp, execReq, noFail, applySort]

/-- Witness for C6: page 0 applies no skip, so the first (and only)
record matching the field filter is returned. -/
theorem find_pagination_witness :
    (0 : Int) ≤ 0 ∧
    Repository.find noFail (.fields [("name", 3)]) 10 0 none [] fiveState =
      (.ok [docC], ⟨fiveState.store, [.findQuery (.fields [("name", 3)]) [] none 0 10]⟩) := by
  refine ⟨le_refl 0, ?_⟩
  rw [find_defaults_and_pagination.2.2.2.1 (.fields [("name", 3)]) 10 0 [] fiveState
    (by decide)]
  decide

/-- On the happy path, `removeMany` with a non-empty ids list issues the
targeted delete and then the unconditional full delete, in that order,
and the store ends empty. -/
lemma removeMany_noFail_some_pos (l : List String) (s : ModelState) (hl : 0 < l.length) :
    Repository.removeMany noFail (some l) s =
      (.ok (), ⟨[], s.log ++ [.deleteMany (.idIn l), .deleteMany .empty]⟩) := by
  have hdef : Repository.removeMany noFail (some l) s =
      (match execReq noFail (.deleteMany (.idIn l)) s with
       | (.error e, s1) => (.error e, s1)
       | (.ok _, s1) => Repository.removeManyTail noFail s1) := by
    simp [Repository.removeMany, hl]
  rw [hdef, execReq_deleteMany_idIn noFail l s rfl]
  rw [show (match ((.ok [] : Except RepoError (List Doc)),
      (⟨s.store.filter (fun d => !(l.contains d.id)),
        s.log ++ [.deleteMany (.idIn l)]⟩ : ModelState)) with
    | (.error e, s1) => ((.error e : Except RepoError Unit), s1)
    | (.ok _, s1) => Repository.removeManyTail noFail s1) =
      Repository.removeManyTail noFail
        ⟨s.store.filter (fun d => !(l.contains d.id)),
          s.log ++ [.deleteMany (.idIn l)]⟩ from rfl]
  rw [removeManyTail_ok noFail _ rfl]
  simp

/-- On the happy path, `removeMany` with an absent ids argument issues
only the unconditional full delete. -/
lemma removeMany_noFail_none (s : ModelState) :
    Repository.removeMany noFail none s =
      (.ok (), ⟨[], s.log ++ [.deleteMany .empty]⟩) :=
  removeManyTail_ok noFail s rfl

/-- C2 (code bug evaluated at the failing input): for the empty payload,
the JavaScript guard of create does not fire — only a null or undefined
payload is falsy — so create on the empty object succeeds and issues an
insertOne request to the storage handle, a storage write. -/
theorem create_empty_object_performs_write :
    jsObjectFalsy (some []) = false ∧
    Repository.create noFail (some []) ⟨[], []⟩ =
      (.ok ⟨engineAssignedId 0, []⟩,
        ⟨[⟨engineAssignedId 0, []⟩], [.insertOne []]⟩) := by
  decide

/-- Counterexample for C3: an identifier failing ObjectId validation,
given to removeMany, is passed to the storage layer inside the targeted
deleteMany request. -/
theorem removeMany_invalid_id_reaches_storage :
    isValidObjectId "bad" = false ∧
    ((Repository.removeMany noFail (some ["bad"]) fiveState).2.log.any
      (fun r => r.usesId "bad")) = true := by
  decide

/-- C3 as amended: get and remove validate the identifier and never pass
an invalid one to the storage layer, but removeMany performs no
validation and hands its ids sequence, valid or not, directly to the
storage engine's bulk delete. -/
theorem id_validation_coverage :
    (∀ (failOn : FailOn) (id : String) (proj : Projection) (s : ModelState),
        isValidObjectId id = false →
        Repository.get failOn id proj s = (.error (.invalidArgument "Invalid Id"), s) ∧
        Repository.remove failOn id s = (.error (.invalidArgument "Invalid Id"), s)) ∧
    (∀ (l : List String) (s : ModelState), 0 < l.length →
        (Repository.removeMany noFail (some l) s).2.log =
          s.log ++ [.deleteMany (.idIn l), .deleteMany .empty]) := by
  refine ⟨fun failOn id proj s h =>
    invalidId_rejected failOn id proj s (invalid_guard_fires id (Or.inr h)),
    fun l s hl => by rw [removeMany_noFail_some_pos l s hl]⟩

/-- Witness for the amended C3: a malformed identifier is rejected by
get but forwarded untouched by removeMany. -/
theorem id_validation_coverage_witness :
    isValidObjectId "zzz" = false ∧
    Repository.get noFail "zzz" [] fiveState =
      (.error (.invalidArgument "Invalid Id"), fiveState) ∧
    (Repository.removeMany noFail (some ["zzz"]) fiveState).2.log =
      [.deleteMany (.idIn ["zzz"]), .deleteMany .empty] := by
  refine ⟨by decide,
    (id_validation_coverage.1 noFail "zzz" [] fiveState (by decide)).1, ?_⟩
  have h := id_validation_coverage.2 ["zzz"] fiveState (by decide)
  simpa [fiveState] using h

/-- Counterexample for C4: a removeMany call with one id issues two
storage requests, not exactly one. -/
theorem removeMany_single_request_counterexample :
    (Repository.removeMany noFail (some [idA]) fiveState).2.log.length = 2 ∧
    ¬ ((Repository.removeMany noFail (some [idA]) fiveState).2.log.length = 1) := by
  decide

/-- C4 as amended: on the happy path removeMany issues two storage
requests when ids is a non-empty sequence and one when it is empty or
absent, while createMany issues none (the model state is untouched);
the repository adds no retry on top. -/
theorem bulk_request_counts :
    (∀ (l : List String) (s : ModelState),
        (Repository.removeMany noFail (some l) s).2.log.length =
          s.log.length + (if 0 < l.length then 2 else 1)) ∧
    (∀ (s : ModelState),
        (Repository.removeMany noFail none s).2.log.length = s.log.length + 1) ∧
    (∀ (data : List Payload) (s : ModelState),
        Repository.createMany data s = (.error .notImplemented, s)) := by
  refine ⟨fun l s => ?_, fun s => ?_, fun data s => rfl⟩
  · by_cases hl : 0 < l.length
    · rw [removeMany_noFail_some_pos l s hl]
      simp [hl]
    · have hdef : Repository.removeMany noFail (some l) s =
          Repository.removeManyTail noFail s := by
        simp [Repository.removeMany, hl]
      rw [hdef, removeManyTail_ok noFail s rfl]
      simp [hl]
  · rw [removeMany_noFail_none s]
    simp

/-- C10: when the storage engine rejects the targeted deletion inside
removeMany with a storage error, removeMany propagates that error, the
subsequent unconditional full-collection delete is never issued, and
every record whose identifier is not in ids is left in the store. -/
theorem removeMany_targeted_failure_propagates (failOn : FailOn) (l : List String)
    (s : ModelState) (hl : 0 < l.length)
    (hf : failOn (.deleteMany (.idIn l)) = true) :
    (Repository.removeMany failOn (some l) s).1 = .error .storageFailure ∧
    (Repository.removeMany failOn (some l) s).2.log =
      s.log ++ [.deleteMany (.idIn l)] ∧
    ∀ d ∈ s.store, l.contains d.id = false →
      d ∈ (Repository.removeMany failOn (some l) s).2.store := by
  have hexec : execReq failOn (.deleteMany (.idIn l)) s =
      (.error .storageFailure, ⟨s.store, s.log ++ [.deleteMany (.idIn l)]⟩) := by
    simp [execReq, hf]
  have hdef : Repository.removeMany failOn (some l) s =
      (.error .storageFailure, ⟨s.store, s.log ++ [.deleteMany (.idIn l)]⟩) := by
    simp [Repository.removeMany, hl, hexec]
  rw [hdef]
  exact ⟨rfl, rfl, fun d hd _ => hd⟩

/-- Witness for C10: an engine rejecting targeted bulk deletes makes
removeMany fail after one request, and a record outside ids survives. -/
theorem removeMany_targeted_failure_witness :
    failTargeted (.deleteMany (.idIn [idA])) = true ∧
    (Repository.removeMany failTargeted (some [idA]) fiveState).1 =
      .error .storageFailure ∧
    (Repository.removeMany failTargeted (some [idA]) fiveState).2.log =
      [.deleteMany (.idIn [idA])] ∧
    docB ∈ (Repository.removeMany failTargeted (some [idA]) fiveState).2.store := by
  have h := removeMany_targeted_failure_propagates failTargeted [idA] fiveState
    (by decide) rfl
  exact ⟨rfl, h.1, by simpa [fiveState] using h.2.1,
    h.2.2 docB (by decide) (by decide)⟩
